import Mathlib

/-!
Verification development for the QuickUMLS spaCy component
(src/quickumls/spacy_component.py).

The component consumes the match records produced by the external QuickUMLS
matching engine and materializes them as labeled entity spans on a spaCy
document.  The embedding below models:

  - documents as token lists (character offsets) plus an entity list;
  - the spaCy StringStore as an interning registry (append-only list);
  - Doc.char_span with the default strict alignment: it yields a span only
    when both character offsets sit on token boundaries, and None otherwise;
  - assignment to doc.ents, which validates that no token belongs to two
    spans and raises ValueError (leaving the document unchanged) otherwise;
  - Span.set_extension, which raises ValueError when the extension name is
    already registered;
  - SpacyQuickUMLS.__call__, whose printed output (the except-branch calls
    print on the rejected span) is collected as an explicit list of
    diagnostics, and whose uncaught exceptions (an AttributeError when
    char_span returns None and the code then writes span._.similarity)
    surface as an Except error.

Similarity values are only ever copied from a match record onto a span,
never computed with, so they are modelled as integers.
-/

/-- A document token, holding the character offsets of its text:
the token covers characters startChar (inclusive) to endChar (exclusive). -/
structure Token where
  startChar : Nat
  endChar : Nat
deriving DecidableEq

/-- An entity span over token indices start (inclusive) to stop (exclusive)
(stop is the field called end in spaCy; end is reserved in Lean), together
with its label and the two extension attributes the component sets.
The extension defaults are -1 for similarity and [] for semtypes (the
source declares both defaults as -1.0; both are overwritten before any
span is committed). -/
structure Ent where
  start : Nat
  stop : Nat
  label : Nat
  similarity : Int
  semtypes : List String
deriving DecidableEq

/-- A document: the token sequence (owned by the pipeline, never mutated by
this component) and the mutable entity collection. -/
structure Doc where
  tokens : List Token
  ents : List Ent
deriving DecidableEq

/-- One match record produced by the external engine: character offsets,
concept code (cui), similarity and semantic types.  stop is the field
called end in the source. -/
structure MatchRecord where
  start : Nat
  stop : Nat
  cui : String
  similarity : Int
  semtypes : List String
deriving DecidableEq

/-- Two entity spans overlap when some token index lies in both. -/
def entsOverlap (a b : Ent) : Bool :=
  decide (a.start < b.stop) && decide (b.start < a.stop)

/-- Two entity spans partially overlap when they overlap and their token
ranges are not identical. -/
def partialOverlapB (a b : Ent) : Bool :=
  entsOverlap a b && !(decide (a.start = b.start) && decide (a.stop = b.stop))

/-- A list of entity spans is admissible for doc.ents when no two of its
members overlap. -/
def noOverlapB : List Ent → Bool
  | [] => true
  | e :: es => es.all (fun f => !(entsOverlap e f)) && noOverlapB es

/-- The spaCy StringStore of nlp.vocab.strings: an interning registry
mapping strings to stable integer ids.  Modelled as the append-only list
of interned strings; the id of a string is its position. -/
abbrev Store := List String

/-- StringStore.add: registers the string if it is not yet present. -/
def Store.add (st : Store) (s : String) : Store :=
  if s ∈ st then st else st ++ [s]

/-- Indexing the StringStore with a string (strings[cui]) yields its id:
the position of the string in the registry. -/
def Store.lookup : Store → String → Nat
  | [], _ => 0
  | t :: ts, s => if t = s then 0 else Store.lookup ts s + 1

/-- The add-then-index pair performed per record in the call method
(strings.add(cui) followed by strings[cui]): the intern operation of the
concept code registry. -/
def intern (st : Store) (s : String) : Store × Nat :=
  let st' := Store.add st s
  (st', Store.lookup st' s)

/-- Position of the first token satisfying a predicate. -/
def findTokenIdx (p : Token → Bool) : List Token → Option Nat
  | [] => none
  | t :: ts => if p t then some 0 else (findTokenIdx p ts).map (· + 1)

/-- Model of Doc.char_span with the default strict alignment mode: the span
from the token starting exactly at startChar to the token ending exactly at
endChar, or none when either offset falls inside a token rather than on a
token boundary. -/
def charSpan (doc : Doc) (startChar endChar : Nat) (label : Nat) : Option Ent :=
  match findTokenIdx (fun t => t.startChar == startChar) doc.tokens,
        findTokenIdx (fun t => t.endChar == endChar) doc.tokens with
  | some i, some j =>
      some { start := i, stop := j + 1, label := label, similarity := -1, semtypes := [] }
  | _, _ => none

/-- Model of assigning doc.ents: spaCy validates that no token belongs to
two of the given spans and raises ValueError otherwise, leaving the
document unchanged. -/
def setEnts (doc : Doc) (es : List Ent) : Except Unit Doc :=
  if noOverlapB es then .ok { doc with ents := es } else .error ()

/-- The uncaught exception of the call method: char_span returns None for
misaligned offsets and the next line writes span._.similarity, raising an
AttributeError that no handler catches. -/
inductive CallErr where
  | attributeError
deriving DecidableEq

/-- A diagnostic line printed by the except ValueError branch: the rejected
span (the branch prints the error, the span and its token indices). -/
abbrev Diag := Ent

/-- One iteration of the inner loop of SpacyQuickUMLS.__call__: intern the
cui, resolve the character offsets with char_span, attach similarity and
semtypes, then try to extend doc.ents, catching only ValueError (which is
printed, collected here in the Diag list). -/
def processRecord (st : Store) (log : List Diag) (doc : Doc) (r : MatchRecord) :
    Store × List Diag × Except CallErr Doc :=
  match charSpan doc r.start r.stop (Store.lookup (Store.add st r.cui) r.cui) with
  | none => (Store.add st r.cui, log, .error .attributeError)
  | some sp =>
      match setEnts doc
          (doc.ents ++ [{ sp with similarity := r.similarity, semtypes := r.semtypes }]) with
      | .ok doc' => (Store.add st r.cui, log, .ok doc')
      | .error _ =>
          (Store.add st r.cui,
           log ++ [{ sp with similarity := r.similarity, semtypes := r.semtypes }], .ok doc)

/-- The inner for loop of the call method over the records of one match
group; an uncaught error aborts the loop. -/
def processRecords (st : Store) (log : List Diag) (doc : Doc) :
    List MatchRecord → Store × List Diag × Except CallErr Doc
  | [] => (st, log, .ok doc)
  | r :: rs =>
      match processRecord st log doc r with
      | (st', log', .ok doc') => processRecords st' log' doc' rs
      | (st', log', .error e) => (st', log', .error e)

/-- The outer for loop of the call method over the match groups. -/
def processGroups (st : Store) (log : List Diag) (doc : Doc) :
    List (List MatchRecord) → Store × List Diag × Except CallErr Doc
  | [] => (st, log, .ok doc)
  | g :: gs =>
      match processRecords st log doc g with
      | (st', log', .ok doc') => processGroups st' log' doc' gs
      | (st', log', .error e) => (st', log', .error e)

/-- SpacyQuickUMLS.__call__: invoke the external matching engine on the
document with the two policy flags, then materialize every match record.
The engine (QuickUMLS._match) is an external collaborator and is passed in
as a function.  The result carries the final StringStore, the printed
diagnostics and either the mutated document or the uncaught error. -/
def call (engine : Doc → Bool → Bool → List (List MatchRecord))
    (bestMatch ignoreSyntax : Bool) (st : Store) (doc : Doc) :
    Store × List Diag × Except CallErr Doc :=
  processGroups st [] doc (engine doc bestMatch ignoreSyntax)

/-- The error raised by Span.set_extension when the extension name is
already registered and force is not set. -/
inductive InitErr where
  | valueError
deriving DecidableEq

/-- Model of the global effect of Span.set_extension(name, default): the
process-wide registry of extension names grows by name, or ValueError is
raised when name is already registered. -/
def setExtension (ext : List String) (name : String) : Except InitErr (List String) :=
  if name ∈ ext then .error .valueError else .ok (ext ++ [name])

/-- The extension registrations performed by SpacyQuickUMLS.__init__: it
registers the similarity and semtypes span extensions, in that order,
without permission to overwrite. -/
def initComponent (ext : List String) : Except InitErr (List String) :=
  match setExtension ext "similarity" with
  | .error e => .error e
  | .ok ext1 => setExtension ext1 "semtypes"

/-- A match record is aligned on the document when its start offset is the
start of some token and its stop offset is the end of some token; exactly
then does char_span return a span. -/
def alignsB (doc : Doc) (r : MatchRecord) : Bool :=
  (findTokenIdx (fun t => t.startChar == r.start) doc.tokens).isSome &&
  (findTokenIdx (fun t => t.endChar == r.stop) doc.tokens).isSome

/-- Concrete document for the misalignment run: three tokens as in the text
Patient has diabetes, with characters 0-7, 8-11 and 12-20. -/
def docC1ex : Doc := { tokens := [⟨0, 7⟩, ⟨8, 11⟩, ⟨12, 20⟩], ents := [] }

/-- Concrete match record whose start offset 14 falls inside the third
token (12-20) of docC1ex. -/
def recMisaligned : MatchRecord :=
  { start := 14, stop := 20, cui := "C0011849", similarity := 9, semtypes := ["Disease"] }

/-- Concrete aligned match record over docC1ex, placed after the misaligned
one in the same batch. -/
def recAligned : MatchRecord :=
  { start := 12, stop := 20, cui := "C0011860", similarity := 8, semtypes := ["Disease"] }

/-- Concrete two-token document for the diagnostics-list run. -/
def docC3ex : Doc := { tokens := [⟨0, 4⟩, ⟨5, 9⟩], ents := [] }

/-- Concrete match record whose start offset 2 falls inside the first token
of docC3ex. -/
def recC3 : MatchRecord :=
  { start := 2, stop := 9, cui := "C0042345", similarity := 7, semtypes := ["Finding"] }

/-- Concrete two-token document (diabetes mellitus) for the duplicate run. -/
def docC5ex : Doc := { tokens := [⟨0, 8⟩, ⟨9, 17⟩], ents := [] }

/-- Concrete aligned match record covering both tokens of docC5ex;
submitted twice in one batch. -/
def recC5 : MatchRecord :=
  { start := 0, stop := 17, cui := "C0011849", similarity := 9, semtypes := ["Disease"] }

/-- The single entity span the duplicate run commits. -/
def entC5 : Ent :=
  { start := 0, stop := 2, label := 0, similarity := 9, semtypes := ["Disease"] }

/-- An entity span already present on docW2 before the conflicting batch. -/
def entW2prev : Ent := { start := 0, stop := 2, label := 0, similarity := 5, semtypes := [] }

/-- Concrete three-token document already carrying entW2prev. -/
def docW2 : Doc := { tokens := [⟨0, 3⟩, ⟨4, 8⟩, ⟨9, 12⟩], ents := [entW2prev] }

/-- Concrete aligned match record over docW2 whose span (tokens 1-3)
partially overlaps entW2prev (tokens 0-2). -/
def recW2 : MatchRecord :=
  { start := 4, stop := 12, cui := "C0033213", similarity := 7, semtypes := ["Finding"] }

/-- The span recW2 resolves to before metadata attachment. -/
def spW2 : Ent := { start := 1, stop := 3, label := 0, similarity := -1, semtypes := [] }

/-- Concrete two-token document with no prior entities. -/
def docW4 : Doc := { tokens := [⟨0, 3⟩, ⟨4, 8⟩], ents := [] }

/-- First aligned match record over docW4 (first token). -/
def recW4a : MatchRecord :=
  { start := 0, stop := 3, cui := "C0004057", similarity := 5, semtypes := [] }

/-- Second aligned match record over docW4 (second token). -/
def recW4b : MatchRecord :=
  { start := 4, stop := 8, cui := "C0004238", similarity := 6, semtypes := [] }

/-- First entity span committed in the docW4 run. -/
def entW4a : Ent := { start := 0, stop := 1, label := 0, similarity := 5, semtypes := [] }

/-- Second entity span committed in the docW4 run. -/
def entW4b : Ent := { start := 1, stop := 2, label := 1, similarity := 6, semtypes := [] }

/-- Concrete three-token document for the roundtrip run. -/
def docW6 : Doc := { tokens := [⟨0, 7⟩, ⟨8, 11⟩, ⟨12, 20⟩], ents := [] }

/-- The span char_span yields on docW6 for offsets 8-20. -/
def entW6 : Ent := { start := 1, stop := 3, label := 5, similarity := -1, semtypes := [] }

/-- Concrete one-token document for the metadata run. -/
def docW7 : Doc := { tokens := [⟨0, 3⟩], ents := [] }

/-- Concrete aligned match record over docW7. -/
def recW7 : MatchRecord :=
  { start := 0, stop := 3, cui := "C0011847", similarity := 4, semtypes := ["T047"] }

/-- Concrete two-token document for the all-aligned completion run. -/
def docW3 : Doc := { tokens := [⟨0, 2⟩, ⟨3, 6⟩], ents := [] }

/-- Concrete aligned match record covering both tokens of docW3. -/
def recW3 : MatchRecord :=
  { start := 0, stop := 6, cui := "C0027497", similarity := 2, semtypes := ["T184"] }

/-- An entity span already present on docW5, occupying exactly token 0-1. -/
def entW5prev : Ent := { start := 0, stop := 1, label := 2, similarity := 3, semtypes := ["X"] }

/-- Concrete one-token document already carrying entW5prev. -/
def docW5 : Doc := { tokens := [⟨0, 4⟩], ents := [entW5prev] }

/-- Concrete aligned match record over docW5 whose span exactly duplicates
the token range of entW5prev. -/
def recW5 : MatchRecord :=
  { start := 0, stop := 4, cui := "C0030193", similarity := 6, semtypes := ["T184"] }

/-- The span recW5 resolves to before metadata attachment. -/
def spW5 : Ent := { start := 0, stop := 1, label := 0, similarity := -1, semtypes := [] }

/-- Concrete one-token document for the interning run. -/
def docW10 : Doc := { tokens := [⟨0, 5⟩], ents := [] }

/-- Concrete aligned match record over docW10. -/
def recW10 : MatchRecord :=
  { start := 0, stop := 5, cui := "C0018681", similarity := 3, semtypes := ["T184"] }

/-- The entity span committed in the docW7 run. -/
def entW7 : Ent := { start := 0, stop := 1, label := 0, similarity := 4, semtypes := ["T047"] }

/-- The entity span committed in the docW10 run. -/
def entW10 : Ent := { start := 0, stop := 1, label := 0, similarity := 3, semtypes := ["T184"] }

/-- Lookup of a member string is unchanged by appending further strings. -/
theorem Store.lookup_append : ∀ (st : Store) (ys : Store) (s : String), s ∈ st →
    Store.lookup (st ++ ys) s = Store.lookup st s := by
  intro st ys s h
  induction st with
  | nil => cases h
  | cons t ts ih =>
      by_cases hts : t = s
      · simp [Store.lookup, hts]
      · rcases List.mem_cons.mp h with h1 | h1
        · exact absurd h1.symm hts
        · simp [Store.lookup, hts, ih h1]

/-- Lookup is injective on the members of the registry. -/
theorem Store.lookup_inj : ∀ (st : Store) (s t : String), s ∈ st → t ∈ st →
    Store.lookup st s = Store.lookup st t → s = t := by
  intro st
  induction st with
  | nil => intro s t hs _ _; cases hs
  | cons u us ih =>
      intro s t hs ht h
      simp only [Store.lookup] at h
      by_cases hus : u = s
      · by_cases hut : u = t
        · rw [← hus, ← hut]
        · rw [if_pos hus, if_neg hut] at h
          exact absurd h (by omega)
      · by_cases hut : u = t
        · rw [if_neg hus, if_pos hut] at h
          exact absurd h (by omega)
        · rw [if_neg hus, if_neg hut] at h
          have hs' : s ∈ us := by
            rcases List.mem_cons.mp hs with h1 | h1
            · exact absurd h1.symm hus
            · exact h1
          have ht' : t ∈ us := by
            rcases List.mem_cons.mp ht with h1 | h1
            · exact absurd h1.symm hut
            · exact h1
          exact ih s t hs' ht' (by omega)

/-- A string is a member of the registry after adding it. -/
theorem Store.mem_add_self (st : Store) (s : String) : s ∈ Store.add st s := by
  unfold Store.add
  split
  · assumption
  · simp

/-- Adding a string keeps every existing member. -/
theorem Store.mem_add (st : Store) (s x : String) (h : x ∈ st) : x ∈ Store.add st s := by
  unfold Store.add
  split
  · exact h
  · exact List.mem_append.mpr (Or.inl h)

/-- Adding an already registered string leaves the registry unchanged. -/
theorem Store.add_of_mem (st : Store) (s : String) (h : s ∈ st) : Store.add st s = st := by
  unfold Store.add
  exact if_pos h

/-- The id of a registered string is unchanged by adding another string. -/
theorem Store.lookup_add (st : Store) (s t : String) (h : s ∈ st) :
    Store.lookup (Store.add st t) s = Store.lookup st s := by
  unfold Store.add
  split
  · rfl
  · exact Store.lookup_append st [t] s h

/-- A successful token search returns the position of a token satisfying
the predicate. -/
theorem findTokenIdx_some (p : Token → Bool) : ∀ (ts : List Token) (i : Nat),
    findTokenIdx p ts = some i → ∃ tk, ts[i]? = some tk ∧ p tk = true := by
  intro ts
  induction ts with
  | nil => intro i h; simp [findTokenIdx] at h
  | cons t ts ih =>
      intro i h
      by_cases hp : p t
      · simp only [findTokenIdx, if_pos hp] at h
        cases h
        exact ⟨t, by simp, hp⟩
      · simp only [findTokenIdx, if_neg hp] at h
        cases hfi : findTokenIdx p ts with
        | none => rw [hfi] at h; cases h
        | some j =>
            rw [hfi] at h
            simp only [Option.map_some'] at h
            cases h
            obtain ⟨tk, htk, hptk⟩ := ih j hfi
            exact ⟨tk, by simpa [List.getElem?_cons_succ] using htk, hptk⟩

/-- Inversion for a successful char_span call: the span is built from the
positions of the boundary tokens. -/
theorem charSpan_eq_some (doc : Doc) (a b lbl : Nat) (sp : Ent)
    (h : charSpan doc a b lbl = some sp) :
    ∃ i j, findTokenIdx (fun t => t.startChar == a) doc.tokens = some i ∧
      findTokenIdx (fun t => t.endChar == b) doc.tokens = some j ∧
      sp = { start := i, stop := j + 1, label := lbl, similarity := -1, semtypes := [] } := by
  unfold charSpan at h
  cases h1 : findTokenIdx (fun t => t.startChar == a) doc.tokens with
  | none => rw [h1] at h; cases h
  | some i =>
      rw [h1] at h
      cases h2 : findTokenIdx (fun t => t.endChar == b) doc.tokens with
      | none => rw [h2] at h; cases h
      | some j =>
          rw [h2] at h
          cases h
          exact ⟨i, j, rfl, rfl, rfl⟩

/-- An aligned record resolves to a span for any label. -/
theorem charSpan_of_aligns (doc : Doc) (r : MatchRecord) (lbl : Nat)
    (h : alignsB doc r = true) : ∃ sp, charSpan doc r.start r.stop lbl = some sp := by
  unfold alignsB at h
  rw [Bool.and_eq_true] at h
  obtain ⟨i, hi⟩ := Option.isSome_iff_exists.mp h.1
  obtain ⟨j, hj⟩ := Option.isSome_iff_exists.mp h.2
  refine ⟨{ start := i, stop := j + 1, label := lbl, similarity := -1, semtypes := [] }, ?_⟩
  unfold charSpan
  rw [hi, hj]

/-- Alignment only depends on the token sequence of the document. -/
theorem alignsB_eq_of_tokens (doc doc' : Doc) (h : doc'.tokens = doc.tokens)
    (r : MatchRecord) : alignsB doc' r = alignsB doc r := by
  unfold alignsB
  rw [h]

/-- Soundness of the admissibility check: it implies pairwise
non-overlap. -/
theorem noOverlapB_sound : ∀ (es : List Ent), noOverlapB es = true →
    es.Pairwise (fun a b => entsOverlap a b = false) := by
  intro es
  induction es with
  | nil => intro _; exact List.Pairwise.nil
  | cons e es ih =>
      intro h
      simp only [noOverlapB, Bool.and_eq_true] at h
      refine List.Pairwise.cons ?_ (ih h.2)
      intro f hf
      have h1 := List.all_eq_true.mp h.1 f hf
      simpa using h1

/-- Appending a span that overlaps a member makes the list inadmissible. -/
theorem noOverlapB_append_false (es : List Ent) (sp e : Ent) (he : e ∈ es)
    (hov : entsOverlap e sp = true) : noOverlapB (es ++ [sp]) = false := by
  cases hb : noOverlapB (es ++ [sp]) with
  | false => rfl
  | true =>
      exfalso
      have hp := noOverlapB_sound _ hb
      have h3 := (List.pairwise_append.mp hp).2.2 e he sp (by simp)
      simp [hov] at h3

/-- Case analysis on one record: either the offsets align and the record is
committed (admissible extension) or dropped with a printed conflict
(inadmissible extension), or the offsets are misaligned and the uncaught
AttributeError aborts; the registry gains the cui in every case. -/
theorem processRecord_cases (st : Store) (log : List Diag) (doc : Doc) (r : MatchRecord) :
    (∃ sp, charSpan doc r.start r.stop (Store.lookup (Store.add st r.cui) r.cui) = some sp ∧
      ((noOverlapB (doc.ents ++
          [{ sp with similarity := r.similarity, semtypes := r.semtypes }]) = true ∧
        processRecord st log doc r =
          (Store.add st r.cui, log,
           .ok { doc with ents := doc.ents ++
             [{ sp with similarity := r.similarity, semtypes := r.semtypes }] })) ∨
       (noOverlapB (doc.ents ++
          [{ sp with similarity := r.similarity, semtypes := r.semtypes }]) = false ∧
        processRecord st log doc r =
          (Store.add st r.cui,
           log ++ [{ sp with similarity := r.similarity, semtypes := r.semtypes }],
           .ok doc)))) ∨
    (charSpan doc r.start r.stop (Store.lookup (Store.add st r.cui) r.cui) = none ∧
      processRecord st log doc r = (Store.add st r.cui, log, .error .attributeError)) := by
  cases hcs : charSpan doc r.start r.stop (Store.lookup (Store.add st r.cui) r.cui) with
  | none =>
      refine Or.inr ⟨rfl, ?_⟩
      unfold processRecord
      rw [hcs]
  | some sp =>
      refine Or.inl ⟨sp, rfl, ?_⟩
      cases hno : noOverlapB (doc.ents ++
          [{ sp with similarity := r.similarity, semtypes := r.semtypes }]) with
      | true =>
          refine Or.inl ⟨rfl, ?_⟩
          unfold processRecord
          rw [hcs]
          simp [setEnts, hno]
      | false =>
          refine Or.inr ⟨rfl, ?_⟩
          unfold processRecord
          rw [hcs]
          simp [setEnts, hno]

/-- The registry returned by one record step is the input registry with the
cui of the record added. -/
theorem processRecord_store (st : Store) (log : List Diag) (doc : Doc) (r : MatchRecord)
    (st' : Store) (log' : List Diag) (res : Except CallErr Doc)
    (h : processRecord st log doc r = (st', log', res)) : st' = Store.add st r.cui := by
  rcases processRecord_cases st log doc r with ⟨sp, _, ⟨_, he⟩ | ⟨_, he⟩⟩ | ⟨_, he⟩ <;>
    rw [he] at h <;> cases h <;> rfl

/-- A record step that does not abort keeps the token sequence and
preserves admissibility of the entity collection. -/
theorem processRecord_ok (st : Store) (log : List Diag) (doc : Doc) (r : MatchRecord)
    (st' : Store) (log' : List Diag) (doc' : Doc)
    (h : processRecord st log doc r = (st', log', .ok doc')) :
    doc'.tokens = doc.tokens ∧ (noOverlapB doc.ents = true → noOverlapB doc'.ents = true) := by
  rcases processRecord_cases st log doc r with ⟨sp, _, ⟨hno, he⟩ | ⟨_, he⟩⟩ | ⟨_, he⟩
  · rw [he] at h
    cases h
    exact ⟨rfl, fun _ => hno⟩
  · rw [he] at h
    cases h
    exact ⟨rfl, fun hh => hh⟩
  · rw [he] at h
    cases h

/-- A record step on an aligned record never aborts. -/
theorem processRecord_ok_of_aligns (st : Store) (log : List Diag) (doc : Doc)
    (r : MatchRecord) (hal : alignsB doc r = true) :
    ∃ log' doc', processRecord st log doc r = (Store.add st r.cui, log', .ok doc') := by
  obtain ⟨sp0, hsp0⟩ :=
    charSpan_of_aligns doc r (Store.lookup (Store.add st r.cui) r.cui) hal
  rcases processRecord_cases st log doc r with ⟨sp, _, ⟨_, he⟩ | ⟨_, he⟩⟩ | ⟨hnone, _⟩
  · exact ⟨_, _, he⟩
  · exact ⟨_, _, he⟩
  · rw [hsp0] at hnone
    cases hnone

/-- Invariants of the inner record loop: the registry only grows; on
completion it contains the cui of every record, the token sequence is
unchanged and admissibility of the entity collection is preserved; on an
abort the record list splits at the aborting record and the registry
contains the cuis of every record up to and including it. -/
theorem processRecords_inv : ∀ (rs : List MatchRecord) (st : Store) (log : List Diag)
    (doc : Doc) (st' : Store) (log' : List Diag) (res : Except CallErr Doc),
    processRecords st log doc rs = (st', log', res) →
    (∀ x ∈ st, x ∈ st') ∧
    (∀ doc'', res = .ok doc'' → (∀ r ∈ rs, r.cui ∈ st') ∧ doc''.tokens = doc.tokens ∧
      (noOverlapB doc.ents = true → noOverlapB doc''.ents = true)) ∧
    (∀ e, res = .error e → ∃ pre r post, rs = pre ++ r :: post ∧ r.cui ∈ st' ∧
      ∀ x ∈ pre, x.cui ∈ st') := by
  intro rs
  induction rs with
  | nil =>
      intro st log doc st' log' res h
      simp only [processRecords] at h
      cases h
      refine ⟨fun x hx => hx, ?_, ?_⟩
      · intro doc'' hok
        cases hok
        exact ⟨fun r hr => absurd hr (List.not_mem_nil r), rfl, fun hh => hh⟩
      · intro e he
        cases he
  | cons r rs ih =>
      intro st log doc st' log' res h
      simp only [processRecords] at h
      cases hr : processRecord st log doc r with
      | mk st1 rest =>
          cases rest with
          | mk log1 res1 =>
              rw [hr] at h
              have hst1 : st1 = Store.add st r.cui :=
                processRecord_store st log doc r st1 log1 res1 hr
              have hcui1 : r.cui ∈ st1 := by
                rw [hst1]
                exact Store.mem_add_self st r.cui
              cases res1 with
              | ok doc1 =>
                  have h' : processRecords st1 log1 doc1 rs = (st', log', res) := h
                  obtain ⟨hok1tok, hok1inv⟩ :=
                    processRecord_ok st log doc r st1 log1 doc1 hr
                  obtain ⟨ihmono, ihok, iherr⟩ := ih st1 log1 doc1 st' log' res h'
                  refine ⟨?_, ?_, ?_⟩
                  · intro x hx
                    refine ihmono x ?_
                    rw [hst1]
                    exact Store.mem_add st r.cui x hx
                  · intro doc'' hok
                    obtain ⟨ha, hb, hc⟩ := ihok doc'' hok
                    refine ⟨?_, by rw [hb, hok1tok], fun hi => hc (hok1inv hi)⟩
                    intro rr hrr
                    rcases List.mem_cons.mp hrr with hrr | hrr
                    · rw [hrr]
                      exact ihmono r.cui hcui1
                    · exact ha rr hrr
                  · intro e he
                    obtain ⟨pre, rr, post, hsplit, hcui, hpre⟩ := iherr e he
                    refine ⟨r :: pre, rr, post, by rw [hsplit, List.cons_append], hcui, ?_⟩
                    intro x hx
                    rcases List.mem_cons.mp hx with hx | hx
                    · rw [hx]
                      exact ihmono r.cui hcui1
                    · exact hpre x hx
              | error e1 =>
                  have h' : ((st1, log1, (.error e1 : Except CallErr Doc)) :
                      Store × List Diag × Except CallErr Doc) = (st', log', res) := h
                  cases h'
                  refine ⟨?_, ?_, ?_⟩
                  · intro x hx
                    rw [hst1]
                    exact Store.mem_add st r.cui x hx
                  · intro doc'' hok
                    cases hok
                  · intro e he
                    refine ⟨[], r, rs, rfl, hcui1, ?_⟩
                    intro x hx
                    exact absurd hx (List.not_mem_nil x)

/-- The inner record loop never aborts when every record in the list is
aligned on the document. -/
theorem processRecords_total_of_aligns : ∀ (rs : List MatchRecord) (st : Store)
    (log : List Diag) (doc : Doc), (∀ r ∈ rs, alignsB doc r = true) →
    ∃ st' log' doc', processRecords st log doc rs = (st', log', .ok doc') ∧
      doc'.tokens = doc.tokens := by
  intro rs
  induction rs with
  | nil =>
      intro st log doc _
      exact ⟨st, log, doc, rfl, rfl⟩
  | cons r rs ih =>
      intro st log doc hal
      obtain ⟨log1, doc1, h1⟩ :=
        processRecord_ok_of_aligns st log doc r (hal r (by simp))
      obtain ⟨htok, _⟩ := processRecord_ok st log doc r _ log1 doc1 h1
      have hal1 : ∀ x ∈ rs, alignsB doc1 x = true := by
        intro x hx
        rw [alignsB_eq_of_tokens doc doc1 htok]
        exact hal x (List.mem_cons.mpr (Or.inr hx))
      obtain ⟨st', log', doc', h2, htok2⟩ := ih (Store.add st r.cui) log1 doc1 hal1
      refine ⟨st', log', doc', ?_, by rw [htok2, htok]⟩
      simp only [processRecords]
      rw [h1]
      exact h2

/-- Running the inner loop on a concatenation runs it on the first part,
then, if no abort occurred, on the second. -/
theorem processRecords_append : ∀ (xs ys : List MatchRecord) (st : Store) (log : List Diag)
    (doc : Doc), processRecords st log doc (xs ++ ys) =
      (match processRecords st log doc xs with
       | (st1, log1, .ok doc1) => processRecords st1 log1 doc1 ys
       | (st1, log1, .error e) => (st1, log1, .error e)) := by
  intro xs
  induction xs with
  | nil =>
      intro ys st log doc
      rfl
  | cons r rs ih =>
      intro ys st log doc
      simp only [List.cons_append, processRecords]
      cases hr : processRecord st log doc r with
      | mk st1 rest =>
          cases rest with
          | mk log1 res1 =>
              cases res1 with
              | ok doc1 => exact ih ys st1 log1 doc1
              | error e => rfl

/-- The nested group loop is the record loop over the flattened groups:
nothing happens at group granularity. -/
theorem processGroups_eq_flatten : ∀ (gs : List (List MatchRecord)) (st : Store)
    (log : List Diag) (doc : Doc),
    processGroups st log doc gs = processRecords st log doc gs.flatten := by
  intro gs
  induction gs with
  | nil =>
      intro st log doc
      rfl
  | cons g gs ih =>
      intro st log doc
      rw [List.flatten_cons, processRecords_append]
      simp only [processGroups]
      cases hr : processRecords st log doc g with
      | mk st1 rest =>
          cases rest with
          | mk log1 res1 =>
              cases res1 with
              | ok doc1 => exact ih st1 log1 doc1
              | error e => rfl

/-- C1: on the document Patient has diabetes, a batch whose first record
has a start offset inside the third token aborts the whole call with the
uncaught AttributeError (char_span returns None and the code writes
span._.similarity on it): no diagnostic is recorded, no entity span is
produced, and the remaining aligned record of the batch is never
processed — its cui is absent from the returned registry.  This evaluates
the code at the failing input of the claim, which expects a recoverable
InvalidSpanError diagnostic and continued processing. -/
theorem quickumls_misaligned_offset_aborts_call :
    call (fun _ _ _ => [[recMisaligned, recAligned]]) true false [] docC1ex =
      (["C0011849"], [], Except.error CallErr.attributeError) := rfl

/-- C2: a candidate span that partially overlaps an entity already present
on the document is recovered per record: the ValueError of the entity
assignment is caught so nothing is raised past the batch boundary, the
conflicting candidate is omitted and the document returns unchanged (every
previously committed span remains), and the conflict is reported as a
printed diagnostic. -/
theorem quickumls_overlap_conflict_recovered (st : Store) (log : List Diag) (doc : Doc)
    (r : MatchRecord) (sp : Ent)
    (hsp : charSpan doc r.start r.stop (Store.lookup (Store.add st r.cui) r.cui) = some sp)
    (e : Ent) (he : e ∈ doc.ents)
    (hov : partialOverlapB e
      { sp with similarity := r.similarity, semtypes := r.semtypes } = true) :
    processRecord st log doc r =
      (Store.add st r.cui,
       log ++ [{ sp with similarity := r.similarity, semtypes := r.semtypes }],
       .ok doc) := by
  have hov' : entsOverlap e
      { sp with similarity := r.similarity, semtypes := r.semtypes } = true := by
    unfold partialOverlapB at hov
    rw [Bool.and_eq_true] at hov
    exact hov.1
  have hno : noOverlapB (doc.ents ++
      [{ sp with similarity := r.similarity, semtypes := r.semtypes }]) = false :=
    noOverlapB_append_false doc.ents _ e he hov'
  unfold processRecord
  rw [hsp]
  simp [setEnts, hno]

/-- C2 witness: on docW2, which already carries entW2prev over tokens 0-2,
the record recW2 resolves to tokens 1-3, partially overlaps it, and is
dropped with a printed diagnostic while the document is unchanged. -/
theorem quickumls_overlap_conflict_recovered_witness :
    processRecord [] [] docW2 recW2 =
      (["C0033213"],
       [{ spW2 with similarity := 7, semtypes := ["Finding"] }],
       .ok docW2) :=
  quickumls_overlap_conflict_recovered [] [] docW2 recW2 spW2 rfl entW2prev (by decide)
    (by decide)

/-- C3 counterexample: an invocation whose batch contains a record with a
start offset inside a token does not return the mutated document together
with a diagnostics list — it aborts with an uncaught error, the offset
issue appearing in no diagnostics list (the log is empty). -/
theorem quickumls_no_diagnostics_list_counterexample :
    call (fun _ _ _ => [[recC3]]) true false [] docC3ex =
      (["C0042345"], [], Except.error CallErr.attributeError) := rfl

/-- C3 amended: when every record of the batch has token-aligned offsets
the call completes and returns the mutated document, overlap conflicts
having been recovered locally and surfaced only as printed output; a
misaligned record instead aborts the invocation with an uncaught error. -/
theorem quickumls_returns_doc_when_aligned
    (engine : Doc → Bool → Bool → List (List MatchRecord)) (b i : Bool)
    (st : Store) (doc : Doc)
    (hal : ∀ r ∈ (engine doc b i).flatten, alignsB doc r = true) :
    ∃ st' log' doc', call engine b i st doc = (st', log', .ok doc') := by
  obtain ⟨st', log', doc', h, _⟩ :=
    processRecords_total_of_aligns ((engine doc b i).flatten) st [] doc hal
  refine ⟨st', log', doc', ?_⟩
  unfold call
  rw [processGroups_eq_flatten]
  exact h

/-- C3 amended witness: a batch with one aligned record over docW3
completes with an ok document. -/
theorem quickumls_returns_doc_when_aligned_witness :
    ∃ st' log' doc',
      call (fun _ _ _ => [[recW3]]) true false [] docW3 = (st', log', .ok doc') :=
  quickumls_returns_doc_when_aligned (fun _ _ _ => [[recW3]]) true false [] docW3 (by decide)

/-- C4: for every engine, both policy flags and any initial document whose
entity collection is admissible (as the hosting library guarantees), when
the call completes the final entity collection contains no two spans with
partially overlapping (non-identical, non-disjoint) token ranges. -/
theorem quickumls_no_partial_overlap_invariant
    (engine : Doc → Bool → Bool → List (List MatchRecord)) (b i : Bool)
    (st : Store) (doc : Doc) (st' : Store) (log' : List Diag) (doc' : Doc)
    (hinv : noOverlapB doc.ents = true)
    (h : call engine b i st doc = (st', log', .ok doc')) :
    doc'.ents.Pairwise (fun a c => partialOverlapB a c = false) := by
  unfold call at h
  rw [processGroups_eq_flatten] at h
  obtain ⟨_, hok, _⟩ :=
    processRecords_inv ((engine doc b i).flatten) st [] doc st' log' (.ok doc') h
  obtain ⟨_, _, hno⟩ := hok doc' rfl
  have hp := noOverlapB_sound _ (hno hinv)
  exact hp.imp (fun hac => by unfold partialOverlapB; rw [hac]; rfl)

/-- C4 witness: a run of two aligned records over docW4 commits two
disjoint spans, which are pairwise free of partial overlap. -/
theorem quickumls_no_partial_overlap_invariant_witness :
    ([entW4a, entW4b] : List Ent).Pairwise (fun a c => partialOverlapB a c = false) :=
  quickumls_no_partial_overlap_invariant (fun _ _ _ => [[recW4a], [recW4b]]) true false []
    docW4 ["C0004057", "C0004238"] []
    { tokens := [⟨0, 3⟩, ⟨4, 8⟩], ents := [entW4a, entW4b] } rfl rfl

/-- C5 counterexample: with bestMatchOnly set to false, a second record
whose span exactly duplicates the one just staged in the same batch is
NOT inserted as an additional co-located entity: the run commits a single
span and prints one conflict for the duplicate. -/
theorem quickumls_duplicate_not_inserted_counterexample :
    call (fun _ _ _ => [[recC5, recC5]]) false false [] docC5ex =
      (["C0011849"], [entC5],
       Except.ok { tokens := [⟨0, 8⟩, ⟨9, 17⟩], ents := [entC5] }) := rfl

/-- C5 amended: regardless of the policy flags, a candidate whose span
exactly duplicates a nonempty span already staged on the document is
rejected by the entity assignment (ValueError), which is caught: the
first span is kept and the document is unchanged, the later duplicate is
dropped with a printed conflict report, and nothing is thrown past the
batch boundary. -/
theorem quickumls_duplicate_conflict_reported (st : Store) (log : List Diag) (doc : Doc)
    (r : MatchRecord) (sp : Ent)
    (hsp : charSpan doc r.start r.stop (Store.lookup (Store.add st r.cui) r.cui) = some sp)
    (e : Ent) (he : e ∈ doc.ents) (hs : e.start = sp.start) (hp : e.stop = sp.stop)
    (hne : sp.start < sp.stop) :
    processRecord st log doc r =
      (Store.add st r.cui,
       log ++ [{ sp with similarity := r.similarity, semtypes := r.semtypes }],
       .ok doc) := by
  have hov' : entsOverlap e
      { sp with similarity := r.similarity, semtypes := r.semtypes } = true := by
    unfold entsOverlap
    simp only [hs, hp]
    simp [hne]
  have hno : noOverlapB (doc.ents ++
      [{ sp with similarity := r.similarity, semtypes := r.semtypes }]) = false :=
    noOverlapB_append_false doc.ents _ e he hov'
  unfold processRecord
  rw [hsp]
  simp [setEnts, hno]

/-- C5 amended witness: on docW5, which already carries entW5prev over
token 0-1, the record recW5 resolves to exactly token 0-1 and is dropped
with a printed conflict while the document is unchanged. -/
theorem quickumls_duplicate_conflict_reported_witness :
    processRecord [] [] docW5 recW5 =
      (["C0030193"], [{ spW5 with similarity := 6, semtypes := ["T184"] }], .ok docW5) :=
  quickumls_duplicate_conflict_reported [] [] docW5 recW5 spW5 rfl entW5prev (by decide)
    (by decide) (by decide) (by decide)

/-- C6: when char_span succeeds, the resulting span maps back to exactly
the requested character range: the token at the first span position starts
at the requested start offset and the token at the last span position ends
at the requested end offset. -/
theorem quickumls_aligned_span_roundtrip (doc : Doc) (a b lbl : Nat) (sp : Ent)
    (h : charSpan doc a b lbl = some sp) :
    ∃ t1 t2, doc.tokens[sp.start]? = some t1 ∧ doc.tokens[sp.stop - 1]? = some t2 ∧
      t1.startChar = a ∧ t2.endChar = b := by
  obtain ⟨i, j, h1, h2, rfl⟩ := charSpan_eq_some doc a b lbl sp h
  obtain ⟨t1, ht1, hp1⟩ := findTokenIdx_some _ doc.tokens i h1
  obtain ⟨t2, ht2, hp2⟩ := findTokenIdx_some _ doc.tokens j h2
  refine ⟨t1, t2, ht1, ?_, ?_, ?_⟩
  · simpa using ht2
  · simpa using hp1
  · simpa using hp2

/-- C6 witness: on docW6, offsets 8-20 resolve to the span over tokens 1-3
whose boundary tokens map back to characters 8 and 20. -/
theorem quickumls_aligned_span_roundtrip_witness :
    ∃ t1 t2, docW6.tokens[entW6.start]? = some t1 ∧
      docW6.tokens[entW6.stop - 1]? = some t2 ∧ t1.startChar = 8 ∧ t2.endChar = 20 :=
  quickumls_aligned_span_roundtrip docW6 8 20 5 entW6 rfl

/-- C7: a committed record carries exactly its metadata: the final
document extends the entity list by one span whose label is the id
obtained by interning the cui of the record in the registry, whose
similarity is the similarity of the record and whose semtypes are the
semtypes of the record. -/
theorem quickumls_committed_span_metadata (st : Store) (log : List Diag) (doc : Doc)
    (r : MatchRecord) (st' : Store) (log' : List Diag) (doc' : Doc)
    (h : processRecord st log doc r = (st', log', .ok doc'))
    (hc : doc'.ents.length = doc.ents.length + 1) :
    ∃ sp, doc'.ents = doc.ents ++ [sp] ∧ sp.label = (intern st r.cui).2 ∧
      sp.similarity = r.similarity ∧ sp.semtypes = r.semtypes := by
  rcases processRecord_cases st log doc r with ⟨sp, hsp, ⟨hno, he⟩ | ⟨hno, he⟩⟩ | ⟨hnone, he⟩
  · rw [he] at h
    cases h
    refine ⟨{ sp with similarity := r.similarity, semtypes := r.semtypes }, rfl, ?_, rfl, rfl⟩
    obtain ⟨i, j, _, _, hspEq⟩ := charSpan_eq_some doc r.start r.stop _ sp hsp
    rw [hspEq]
    rfl
  · rw [he] at h
    cases h
    exact absurd hc (by omega)
  · rw [he] at h
    cases h

/-- C7 witness: committing recW7 on the empty one-token document docW7
yields exactly entW7, labeled with the interned id of its cui. -/
theorem quickumls_committed_span_metadata_witness :
    ∃ sp, ({ tokens := [⟨0, 3⟩], ents := [entW7] } : Doc).ents = docW7.ents ++ [sp] ∧
      sp.label = (intern [] "C0011847").2 ∧ sp.similarity = 4 ∧ sp.semtypes = ["T047"] :=
  quickumls_committed_span_metadata [] [] docW7 recW7 ["C0011847"] []
    { tokens := [⟨0, 3⟩], ents := [entW7] } rfl rfl

/-- C8: intern called twice with the same code returns the same id both
times; interning a distinct code afterwards returns a distinct id; and the
id assigned to a code is never changed by any later intern. -/
theorem quickumls_intern_registry_props (st : Store) (s t u : String) (hst : s ≠ t) :
    (intern (intern st s).1 s).2 = (intern st s).2 ∧
    (intern (intern st s).1 t).2 ≠ (intern st s).2 ∧
    Store.lookup (intern (intern st s).1 u).1 s = (intern st s).2 := by
  have hs1 : s ∈ Store.add st s := Store.mem_add_self st s
  refine ⟨?_, ?_, ?_⟩
  · show Store.lookup (Store.add (Store.add st s) s) s = Store.lookup (Store.add st s) s
    rw [Store.add_of_mem _ _ hs1]
  · show Store.lookup (Store.add (Store.add st s) t) t ≠ Store.lookup (Store.add st s) s
    intro hcontra
    have hs2 : s ∈ Store.add (Store.add st s) t := Store.mem_add _ _ _ hs1
    have ht2 : t ∈ Store.add (Store.add st s) t := Store.mem_add_self _ _
    have hlk : Store.lookup (Store.add (Store.add st s) t) s
        = Store.lookup (Store.add st s) s := Store.lookup_add _ _ _ hs1
    have hts := Store.lookup_inj _ t s ht2 hs2 (by rw [hcontra, hlk])
    exact hst hts.symm
  · show Store.lookup (Store.add (Store.add st s) u) s = Store.lookup (Store.add st s) s
    exact Store.lookup_add _ _ _ hs1

/-- C8 witness at the empty registry with three distinct concept codes. -/
theorem quickumls_intern_registry_props_witness :
    (intern (intern [] "C0011849").1 "C0011849").2 = (intern [] "C0011849").2 ∧
    (intern (intern [] "C0011849").1 "C0011860").2 ≠ (intern [] "C0011849").2 ∧
    Store.lookup (intern (intern [] "C0011849").1 "C0027497").1 "C0011849" =
      (intern [] "C0011849").2 :=
  quickumls_intern_registry_props [] "C0011849" "C0011860" "C0027497" (by decide)

/-- C9: construction is not repeatable in one process: from the empty
extension registry the first construction registers the similarity and
semtypes span extensions, and every construction starting from a state
produced by a successful construction fails with ValueError because the
extensions are registered again without permission to overwrite. -/
theorem quickumls_init_not_repeatable :
    initComponent [] = .ok ["similarity", "semtypes"] ∧
    ∀ ext ext', initComponent ext = .ok ext' →
      initComponent ext' = .error .valueError := by
  refine ⟨rfl, ?_⟩
  intro ext ext' h
  have hmem : "similarity" ∈ ext' := by
    unfold initComponent at h
    cases h1 : setExtension ext "similarity" with
    | error e =>
        rw [h1] at h
        cases h
    | ok ext1 =>
        rw [h1] at h
        have hm1 : "similarity" ∈ ext1 := by
          unfold setExtension at h1
          by_cases hs : "similarity" ∈ ext
          · rw [if_pos hs] at h1
            cases h1
          · rw [if_neg hs] at h1
            cases h1
            simp
        have h2 : setExtension ext1 "semtypes" = Except.ok ext' := h
        unfold setExtension at h2
        by_cases hs : "semtypes" ∈ ext1
        · rw [if_pos hs] at h2
          cases h2
        · rw [if_neg hs] at h2
          cases h2
          exact List.mem_append.mpr (Or.inl hm1)
  unfold initComponent setExtension
  rw [if_pos hmem]

/-- C9 witness: the second construction, starting from the registry left
by the first, raises ValueError. -/
theorem quickumls_init_not_repeatable_witness :
    initComponent ["similarity", "semtypes"] = .error .valueError :=
  quickumls_init_not_repeatable.2 [] ["similarity", "semtypes"] rfl

/-- C10: the cui of each record is added to the registry before its span
is validated or committed; hence the final registry contains every prior
member, the cui of every record of a completed batch (including records
dropped for overlap conflicts), and, when the batch aborts on a misaligned
record, the cuis of the records up to and including the aborting one. -/
theorem quickumls_interned_before_validation
    (engine : Doc → Bool → Bool → List (List MatchRecord)) (b i : Bool)
    (st : Store) (doc : Doc) (st' : Store) (log' : List Diag) (res : Except CallErr Doc)
    (h : call engine b i st doc = (st', log', res)) :
    (∀ x ∈ st, x ∈ st') ∧
    (∀ doc'', res = .ok doc'' → ∀ r ∈ (engine doc b i).flatten, r.cui ∈ st') ∧
    (∀ e, res = .error e → ∃ pre r post, (engine doc b i).flatten = pre ++ r :: post ∧
      r.cui ∈ st' ∧ ∀ x ∈ pre, x.cui ∈ st') := by
  unfold call at h
  rw [processGroups_eq_flatten] at h
  obtain ⟨hmono, hok, herr⟩ :=
    processRecords_inv ((engine doc b i).flatten) st [] doc st' log' res h
  exact ⟨hmono, fun doc'' hres => (hok doc'' hres).1, herr⟩

/-- C10 witness: a completed one-record batch leaves the cui of the record
in the returned registry. -/
theorem quickumls_interned_before_validation_witness :
    (∀ x ∈ ([] : Store), x ∈ (["C0018681"] : Store)) ∧
    (∀ doc'', (Except.ok { tokens := [⟨0, 5⟩], ents := [entW10] } :
        Except CallErr Doc) = .ok doc'' →
      ∀ r ∈ ([[recW10]] : List (List MatchRecord)).flatten,
        r.cui ∈ (["C0018681"] : Store)) ∧
    (∀ e, (Except.ok { tokens := [⟨0, 5⟩], ents := [entW10] } :
        Except CallErr Doc) = .error e →
      ∃ pre r post, ([[recW10]] : List (List MatchRecord)).flatten = pre ++ r :: post ∧
        r.cui ∈ (["C0018681"] : Store) ∧ ∀ x ∈ pre, x.cui ∈ (["C0018681"] : Store)) :=
  quickumls_interned_before_validation (fun _ _ _ => [[recW10]]) true false [] docW10
    ["C0018681"] [] (.ok { tokens := [⟨0, 5⟩], ents := [entW10] }) rfl
